import Mathlib

/-!
Shallow embedding of the calculator core in `src/mathparser.py` and the
user-defined-function builder in `src/main_tasks.py` (Ngoc-Cac/Calculator).

Modelling conventions:
* Python numbers (int/float) are modelled as `Rat`; the numeric operations
  registered by this program (+ - * /, factorial) are exact on the inputs the
  claims exercise, so no floating-point rounding is involved.
* A Python function that can raise models as `Except PyError _` (methods) or
  `Option Rat` (registered operations, where `none` stands for the operation
  itself raising, e.g. `_factorial` on a non-integer or division by zero).
* Python `dict` is an association list: lookup by key, `d[k] = v` replaces in
  place when the key exists and appends otherwise, `k in d` is key membership.
* Python `list` stacks (`append`/`pop` at the right end) are Lean lists with
  the head as the top of the stack; the accumulated postfix output, which the
  source only ever appends to, is kept in append order (`xs ++ [x]`).
-/

namespace MathParser

attribute [local semireducible] Rat.add Rat.sub Rat.mul Rat.inv Rat.ofScientific

/-- The distinct raise sites of the source, one constructor per site.
`duplicate*` model the `ValueError`s of `add_operator`/`add_function`/
`add_constant`; `unknownImplicit` the `OperatorException` of the
`implicit_operation` setter; `mismatchedParenthesis` and `unknownToken` the
`OperandException`/`ValueError` of `parse`; `keyError` a Python `KeyError`
from `self._operators[opt_stack[-1]]`; `tooFewOperands`, `nonNumericOperand`
and `tooManyOperands` the `OperandException`s of `postfit_evaluate`;
`arityMismatch` the `OperandException` of `NVarMathFunction.__call__`;
`operationRaised` an exception raised inside a registered operation. -/
inductive PyError where
  | duplicateOperator (tok : String)
  | duplicateFunction (tok : String)
  | duplicateConstant (tok : String)
  | unknownImplicit (tok : String)
  | mismatchedParenthesis
  | unknownToken (tok : String)
  | keyError (tok : String)
  | tooFewOperands (tok : String)
  | nonNumericOperand (tok : String)
  | tooManyOperands
  | arityMismatch
  | operationRaised
deriving DecidableEq

/-- `Associativity` enum of `mathparser.py` (`RIGHT = 0`, `LEFT = 1`,
`SPECIAL = 2`; `SPECIAL` is the value behind the string literal `both`). -/
inductive Associativity where
  | RIGHT
  | LEFT
  | SPECIAL
deriving DecidableEq

/-- `UnaryOperator` / `BinaryOperator` of `mathparser.py`. A unary operator
has a 1-argument operation and a left/right associativity; a binary operator
has a 2-argument operation, an integer precedence and an associativity that
may also be `SPECIAL` (the source's string literal `both`). An operation
returning `none` models the underlying Python callable raising. -/
inductive Operator where
  | unary (token : String) (operation : Rat → Option Rat)
      (associativity : Associativity)
  | binary (token : String) (operation : Rat → Rat → Option Rat)
      (precedence : Int) (associativity : Associativity)

def Operator.token : Operator → String
  | .unary t _ _ => t
  | .binary t _ _ _ => t

def Operator.isUnary : Operator → Bool
  | .unary _ _ _ => true
  | .binary _ _ _ _ => false

/-- `precedence` is only defined on `BinaryOperator` in the source; reading it
on a unary operator would be an `AttributeError`, and `operator_condition`
never does so.  The `0` default is never consulted. -/
def Operator.precedence : Operator → Int
  | .unary _ _ _ => 0
  | .binary _ _ p _ => p

def Operator.associativity : Operator → Associativity
  | .unary _ _ a => a
  | .binary _ _ _ a => a

/-- `n_var`: 1 for a unary operator (`SingleVarMathFunction`), 2 for a binary
operator. -/
def Operator.n_var : Operator → Nat
  | .unary _ _ _ => 1
  | .binary _ _ _ _ => 2

/-- `NVarMathFunction.__call__`: raises `OperandException` when the number of
arguments differs from `n_var`, otherwise applies the stored operation. -/
def Operator.call : Operator → List Rat → Except PyError Rat
  | o, args =>
    if args.length ≠ o.n_var then .error .arityMismatch
    else
      match o, args with
      | .unary _ f _, [a] => (f a).elim (.error .operationRaised) .ok
      | .binary _ f _ _, [a, b] => (f a b).elim (.error .operationRaised) .ok
      | _, _ => .error .operationRaised

/-- `NVarMathFunction` of `mathparser.py`: a token, an `n_var`-ary operation
and the arity `n_var`. -/
structure NVarMathFunction where
  token : String
  operation : List Rat → Option Rat
  n_var : Nat

/-- `NVarMathFunction.__call__`. -/
def NVarMathFunction.call (f : NVarMathFunction) (args : List Rat) :
    Except PyError Rat :=
  if args.length ≠ f.n_var then .error .arityMismatch
  else (f.operation args).elim (.error .operationRaised) .ok

/-- `MathConstant` of `mathparser.py`. -/
structure MathConstant where
  token : String
  value : Rat

/-- A Python `dict` keyed by strings, as an association list. -/
abbrev Dict (α : Type) : Type := List (String × α)

def Dict.nil {α : Type} : Dict α := ([] : List (String × α))

def Dict.get? {α : Type} (d : Dict α) (k : String) : Option α :=
  match d with
  | ([] : List (String × α)) => none
  | p :: rest => if p.1 = k then some p.2 else Dict.get? rest k

/-- Python `k in d`. -/
def Dict.contains {α : Type} (d : Dict α) (k : String) : Bool :=
  (d.get? k).isSome

/-- Python `d[k] = v`: replace in place when the key exists, append
otherwise. -/
def Dict.insert {α : Type} (d : Dict α) (k : String) (v : α) : Dict α :=
  if d.contains k then
    (d : List (String × α)).map (fun p => if p.1 = k then (k, v) else p)
  else (d : List (String × α)) ++ [(k, v)]

def Dict.keys {α : Type} (d : Dict α) : List String :=
  (d : List (String × α)).map Prod.fst

/-- The state of a `MathEvaluator`: the three token→symbol maps and the
optional implicit operation (the source stores the operator object itself). -/
structure MathEvaluator where
  operators : Dict Operator
  functions : Dict NVarMathFunction
  constants : Dict MathConstant
  implicit_operation : Option Operator

/-- `MathEvaluator.add_operator`: duplicate check against the operator map. -/
def MathEvaluator.add_operator (self : MathEvaluator) (operator : Operator) :
    Except PyError MathEvaluator :=
  if self.operators.contains operator.token then
    .error (.duplicateOperator operator.token)
  else .ok { self with operators := self.operators.insert operator.token operator }

/-- `MathEvaluator.add_function`.  NOTE: the duplicate check in the source is
`func.token in self._operators` — it consults the OPERATOR map, not the
function map, even though the raised message reads `Function token ...
already exists!`. -/
def MathEvaluator.add_function (self : MathEvaluator) (func : NVarMathFunction) :
    Except PyError MathEvaluator :=
  if self.operators.contains func.token then
    .error (.duplicateFunction func.token)
  else .ok { self with functions := self.functions.insert func.token func }

/-- `MathEvaluator.add_constant`: duplicate check against the constant map. -/
def MathEvaluator.add_constant (self : MathEvaluator) (constant : MathConstant) :
    Except PyError MathEvaluator :=
  if self.constants.contains constant.token then
    .error (.duplicateConstant constant.token)
  else .ok { self with constants := self.constants.insert constant.token constant }

/-- `MathEvaluator.__init__`: registers the given symbols through the three
`add_*` methods (so a duplicate raises), then silently sets
`_implicit_operation` to the operator at `implicit_operation_token` when that
token is an operator key and to `None` otherwise — no error is raised for an
unknown token here, unlike the `implicit_operation` setter. -/
def MathEvaluator.init (operators : List Operator)
    (functions : List NVarMathFunction) (constants : List MathConstant)
    (implicit_operation_token : String) : Except PyError MathEvaluator :=
  match operators.foldlM MathEvaluator.add_operator
      ⟨Dict.nil, Dict.nil, Dict.nil, none⟩ with
  | .error e => .error e
  | .ok e1 =>
    match functions.foldlM MathEvaluator.add_function e1 with
    | .error e => .error e
    | .ok e2 =>
      match constants.foldlM MathEvaluator.add_constant e2 with
      | .error e => .error e
      | .ok e3 =>
        .ok { e3 with
          implicit_operation := e3.operators.get? implicit_operation_token }

/-- The `implicit_operation` property setter: raises `OperatorException` when
the token is not an operator key. -/
def MathEvaluator.set_implicit_operation (self : MathEvaluator) (tok : String) :
    Except PyError MathEvaluator :=
  match self.operators.get? tok with
  | some op => .ok { self with implicit_operation := some op }
  | none => .error (.unknownImplicit tok)

/-! ### Numeric literals: Python `float(string)` on the fragment this program
can produce (optional sign, integer digits, optional fractional digits,
optional signed exponent; at least one mantissa digit).  Python additionally
strips surrounding whitespace and accepts digit underscores and the words
inf/infinity/nan; no token reaching `float` in this program has any of those
shapes, and they are not modelled. -/

def digitsToNat (ds : List Char) : Nat :=
  ds.foldl (fun a c => 10 * a + (c.toNat - 48)) 0

def pyFloatChars (cs : List Char) : Option Rat :=
  let sgn : Rat × List Char :=
    match cs with
    | '+' :: r => (1, r)
    | '-' :: r => (-1, r)
    | _ => (1, cs)
  let ip := sgn.2.takeWhile Char.isDigit
  let cs2 := sgn.2.dropWhile Char.isDigit
  let fp : List Char × List Char :=
    match cs2 with
    | '.' :: r => (r.takeWhile Char.isDigit, r.dropWhile Char.isDigit)
    | _ => ([], cs2)
  if ip = [] ∧ fp.1 = [] then none
  else
    let mant : Rat :=
      (digitsToNat ip : Rat) + (digitsToNat fp.1 : Rat) / (10 : Rat) ^ fp.1.length
    match fp.2 with
    | [] => some (sgn.1 * mant)
    | c :: r =>
      if c = 'e' ∨ c = 'E' then
        let esgn : Int × List Char :=
          match r with
          | '+' :: rr => (1, rr)
          | '-' :: rr => (-1, rr)
          | _ => (1, r)
        let ed := esgn.2.takeWhile Char.isDigit
        let rest := esgn.2.dropWhile Char.isDigit
        if ed = [] ∨ rest ≠ [] then none
        else some (sgn.1 * mant * (10 : Rat) ^ (esgn.1 * (digitsToNat ed : Int)))
      else none

def pyFloat? (s : String) : Option Rat := pyFloatChars s.toList

/-- `is_numeric` of `mathparser.py`: true iff `float(string)` succeeds. -/
def is_numeric (s : String) : Bool := (pyFloat? s).isSome

/-! ### `_shuntyard_format_string`: the tokenizer. -/

/-- Python `pat in s` for a non-empty pattern (substring test). -/
def containsSub (s pat : List Char) : Bool :=
  match s with
  | [] => pat.isEmpty
  | _ :: rest => pat.isPrefixOf s || containsSub rest pat

/-- Python `f" {tok} ".join(string.split(tok))`: replace every non-overlapping
occurrence of `pat` (leftmost first) by `rep`.  The source never calls this
with an empty token (`str.split` would raise).  Structural recursion on a
step budget (each step consumes at least one character, so `s.length` steps
always suffice and the budget-exhausted base case is unreachable); this keeps
the function reducible by `rfl`, unlike well-founded recursion. -/
def replaceAllFuel (pat rep : List Char) : Nat → List Char → List Char
  | 0, s => s
  | _ + 1, [] => []
  | fuel + 1, c :: rest =>
    if pat ≠ [] ∧ pat.isPrefixOf (c :: rest) then
      rep ++ replaceAllFuel pat rep fuel (rest.drop (pat.length - 1))
    else c :: replaceAllFuel pat rep fuel rest

def replaceAll (pat rep s : List Char) : List Char :=
  replaceAllFuel pat rep s.length s

/-- Python `str.split()` with no argument: split on runs of whitespace,
discarding empty chunks. -/
def splitWSAux : List Char → List Char → List (List Char)
  | [], cur => if cur = [] then [] else [cur.reverse]
  | c :: r, cur =>
    if c.isWhitespace then
      if cur = [] then splitWSAux r [] else cur.reverse :: splitWSAux r []
    else splitWSAux r (c :: cur)

def splitWS (s : List Char) : List (List Char) := splitWSAux s []

/-- `set(self._operators) | set(self._functions) | set(self._constants)`.
Python iterates this set in an unspecified (hash-dependent) order; the model
fixes the order operators, functions, constants, each in insertion order.
Every concrete input appearing in the claims is insensitive to this order
(no recognised token of the standard registry overlaps another inside those
inputs). -/
def MathEvaluator.recognised_tokens (self : MathEvaluator) : List String :=
  self.operators.keys ++ self.functions.keys ++ self.constants.keys

/-- The token-isolation loop of `_shuntyard_format_string`: for every
recognised token occurring in the string, surround each of its occurrences
with spaces. -/
def isolateTokens (toks : List String) (s : List Char) : List Char :=
  toks.foldl
    (fun acc tok =>
      if containsSub acc tok.toList then
        replaceAll tok.toList (' ' :: (tok.toList ++ [' '])) acc
      else acc)
    s

/-- `MathEvaluator._shuntyard_format_string`: isolate every occurrence of a
recognised token with spaces, split the result on whitespace, and emit each
chunk either whole (recognised or numeric) or as its single characters. -/
def MathEvaluator.shuntyard_format_string (self : MathEvaluator)
    (string : String) : List String :=
  (splitWS (isolateTokens self.recognised_tokens string.toList)).foldl
    (fun output sub =>
      let subS := String.mk sub
      if self.recognised_tokens.contains subS || is_numeric subS then
        output ++ [subS]
      else output ++ sub.map (fun c => String.mk [c]))
    []

/-! ### `MathEvaluator.parse`: the shunting-yard converter.
The operator stack `opt_stack` has its top at the head; the output
`val_stack` is in append order. -/

/-- The inner `check_implicit_operation` of `parse`: when the previous token
(by original index; `none` at index 0) is numeric and an implicit operation
is configured, push the implicit operation's token onto the operator
stack. -/
def MathEvaluator.check_implicit_operation (self : MathEvaluator)
    (prev : Option String) (opt_stack : List String) : List String :=
  match prev, self.implicit_operation with
  | some p, some op => if is_numeric p then op.token :: opt_stack else opt_stack
  | _, _ => opt_stack

/-- The inner `operator_condition` of `parse`: `operator_1` is the incoming
operator, `operator_2` the stack top.  If either is unary, pop iff the stack
top is unary and the incoming one is not.  Otherwise pop iff the incoming
precedence is lower than the stack top's, or the precedences are equal and
the INCOMING operator is `LEFT`- or `SPECIAL`-associative. -/
def operator_condition (operator_1 operator_2 : Operator) : Bool :=
  if operator_1.isUnary || operator_2.isUnary then
    !operator_1.isUnary && operator_2.isUnary
  else
    let lower_precedence : Bool :=
      decide (operator_1.precedence < operator_2.precedence)
    let left_associative : Bool :=
      decide (operator_1.precedence = operator_2.precedence) &&
        (operator_1.associativity == Associativity.LEFT ||
         operator_1.associativity == Associativity.SPECIAL)
    lower_precedence || left_associative

/-- The operator-token branch of `parse`: while the stack is non-empty, its
top is not `(` and `operator_condition` holds, pop the top to the output.
The source looks the stack top up in `self._operators`; a top that is neither
`(` nor an operator key raises a `KeyError`. -/
def MathEvaluator.popOperators (self : MathEvaluator) (incoming : Operator) :
    List String → List String → Except PyError (List String × List String)
  | [], val => .ok ([], val)
  | top :: rest, val =>
    if top = "(" then .ok (top :: rest, val)
    else
      match self.operators.get? top with
      | none => .error (.keyError top)
      | some o2 =>
        if operator_condition incoming o2 then
          self.popOperators incoming rest (val ++ [top])
        else .ok (top :: rest, val)

/-- The `,` and `)` branches of `parse`: pop the stack to the output until a
`(` is at the top (the `(` itself is not popped here), raising
`OperandException` when the stack runs out. -/
def popUntilParen :
    List String → List String → Except PyError (List String × List String)
  | [], _ => .error .mismatchedParenthesis
  | top :: rest, val =>
    if top = "(" then .ok (top :: rest, val)
    else popUntilParen rest (val ++ [top])

/-- One iteration of the token loop of `parse`, at token `string` with the
previous token `prev` (`none` at index 0): returns the updated
`(opt_stack, val_stack)`. -/
def MathEvaluator.parseStep (self : MathEvaluator) (prev : Option String)
    (string : String) (opt_stack val_stack : List String) :
    Except PyError (List String × List String) :=
  if is_numeric string then .ok (opt_stack, val_stack ++ [string])
  else if self.constants.contains string then
    .ok (self.check_implicit_operation prev opt_stack, val_stack ++ [string])
  else if self.functions.contains string then
    .ok (string :: self.check_implicit_operation prev opt_stack, val_stack)
  else
    match self.operators.get? string with
    | some incoming =>
      match self.popOperators incoming opt_stack val_stack with
      | .error e => .error e
      | .ok r => .ok (string :: r.1, r.2)
    | none =>
      if string = "," then popUntilParen opt_stack val_stack
      else if string = "(" then .ok ("(" :: opt_stack, val_stack)
      else if string = ")" then
        match popUntilParen opt_stack val_stack with
        | .error e => .error e
        | .ok r =>
          match r.1 with
          | _ :: rest =>
            match rest with
            | top :: rest2 =>
              if self.functions.contains top then .ok (rest2, r.2 ++ [top])
              else .ok (rest, r.2)
            | [] => .ok ([], r.2)
          | [] => .error .mismatchedParenthesis
      else .error (.unknownToken string)

/-- The final loop of `parse`: drain the operator stack to the output,
raising `OperandException` when a `(` remains. -/
def drainStack : List String → List String → Except PyError (List String)
  | [], val => .ok val
  | top :: rest, val =>
    if top = "(" then .error .mismatchedParenthesis
    else drainStack rest (val ++ [top])

/-- The token loop of `parse` over the formatted token list. -/
def MathEvaluator.parseTokens (self : MathEvaluator) :
    List String → Option String → List String → List String →
    Except PyError (List String)
  | [], _, opt, val => drainStack opt val
  | t :: rest, prev, opt, val =>
    match self.parseStep prev t opt val with
    | .error e => .error e
    | .ok r => self.parseTokens rest (some t) r.1 r.2

/-- `MathEvaluator.parse`. -/
def MathEvaluator.parse (self : MathEvaluator) (expr : String) :
    Except PyError (List String) :=
  self.parseTokens (self.shuntyard_format_string expr) none [] []

/-! ### `MathEvaluator.postfit_evaluate`: the postfix stack machine.
The value stack has its top at the head (Python appends/pops at the right
end). -/

/-- The pop loop `for _ in range(refer.n_var): temp.append(values.pop())`:
returns the popped values in pop order (stack top first) and the remaining
stack, or `none` when the stack underflows (Python `IndexError`). -/
def popN : Nat → List Rat → Option (List Rat × List Rat)
  | 0, vs => some ([], vs)
  | _ + 1, [] => none
  | m + 1, v :: vs =>
    match popN m vs with
    | some r => some (v :: r.1, r.2)
    | none => none

/-- `refer = self._operators[char] if opt_found else self._functions[char]`,
exposing the arity and the `__call__` of the resolved symbol. -/
def MathEvaluator.refer? (self : MathEvaluator) (char : String) :
    Option (Nat × (List Rat → Except PyError Rat)) :=
  if self.operators.contains char then
    (self.operators.get? char).map (fun o => (o.n_var, o.call))
  else (self.functions.get? char).map (fun f => (f.n_var, f.call))

/-- One iteration of the token loop of `postfit_evaluate`: an operator or
function token pops its arity of values (raising `OperandException` on
underflow), reverses them back into left-to-right order, applies the symbol
and pushes the result; a constant pushes its value; anything else is parsed
as a float and pushed, raising `OperandException` when that fails. -/
def MathEvaluator.evalStep (self : MathEvaluator) (values : List Rat)
    (char : String) : Except PyError (List Rat) :=
  match self.refer? char with
  | some nc =>
    match popN nc.1 values with
    | none => .error (.tooFewOperands char)
    | some r =>
      match nc.2 r.1.reverse with
      | .error e => .error e
      | .ok v => .ok (v :: r.2)
  | none =>
    match self.constants.get? char with
    | some c => .ok (c.value :: values)
    | none =>
      match pyFloat? char with
      | some v => .ok (v :: values)
      | none => .error (.nonNumericOperand char)

/-- `MathEvaluator.postfit_evaluate`: an empty token list evaluates to `0`;
otherwise run the stack machine and require exactly one remaining value. -/
def MathEvaluator.postfit_evaluate (self : MathEvaluator) (expr : List String) :
    Except PyError Rat :=
  if expr.isEmpty then .ok 0
  else
    match expr.foldlM self.evalStep [] with
    | .error e => .error e
    | .ok values =>
      match values with
      | [v] => .ok v
      | _ => .error .tooManyOperands

/-! ### The standard registry of `main_tasks.py`.
The transcendental operations `np.sin`, `np.cos`, `np.tan`, the `cot` lambda
and the float power `opt.pow` compute platform doubles and have no exact
model in `Rat`; they are modelled as operations that are never applied
(`fun _ => none`), and indeed no claim evaluates a token that would apply
one of them.  The constants `np.pi` and `np.e` ARE doubles with exact
rational values, used verbatim below. -/

/-- `_factorial` of `main_tasks.py`: raises `TypeError` on a non-integral
float; on an integral one, the product of `2 .. num` (which is `1` for
`num < 2`, including negative inputs, matching the empty Python `range`). -/
def pyFactorial (num : Rat) : Option Rat :=
  if num.den = 1 then some ((num.num.toNat.factorial : Nat) : Rat) else none

/-- `operator.truediv`: raises `ZeroDivisionError` on a zero divisor. -/
def pyDiv (a b : Rat) : Option Rat := if b = 0 then none else some (a / b)

/-- Stand-in for a registered operation whose numeric behaviour is not
modelled (`none` = it raises); no claim ever applies it. -/
def unmodelledUnary : Rat → Option Rat := fun _ => none

/-- Stand-in for `operator.pow` on floats; no claim ever applies it. -/
def unmodelledBinary : Rat → Rat → Option Rat := fun _ _ => none

/-- The exact rational value of the IEEE-754 double `np.pi`. -/
def np_pi : Rat := (884279719003555 : Rat) / (281474976710656 : Rat)

/-- The exact rational value of the IEEE-754 double `np.e`. -/
def np_e : Rat := (6121026514868073 : Rat) / (2251799813685248 : Rat)

def FACTORIAL : Operator := .unary "!" pyFactorial .LEFT

def ADDITION : Operator := .binary "+" (fun a b => some (a + b)) 0 .SPECIAL

def SUBTRACTION : Operator := .binary "-" (fun a b => some (a - b)) 0 .SPECIAL

def MULTIPLICATION : Operator := .binary "*" (fun a b => some (a * b)) 1 .SPECIAL

def DIVISION : Operator := .binary "/" pyDiv 1 .LEFT

def EXPONENTIATION : Operator := .binary "^" unmodelledBinary 2 .RIGHT

/-- `SingleVarMathFunction`: an `NVarMathFunction` of arity 1. -/
def singleVarFn (token : String) (f : Rat → Option Rat) : NVarMathFunction :=
  ⟨token, fun args => match args with | [a] => f a | _ => none, 1⟩

def SIN : NVarMathFunction := singleVarFn "sin" unmodelledUnary

def COS : NVarMathFunction := singleVarFn "cos" unmodelledUnary

def TAN : NVarMathFunction := singleVarFn "tan" unmodelledUnary

def COT : NVarMathFunction := singleVarFn "cot" unmodelledUnary

def PI : MathConstant := ⟨"pi", np_pi⟩

def EULER : MathConstant := ⟨"e", np_e⟩

def OPERATORS : List Operator :=
  [ADDITION, SUBTRACTION, MULTIPLICATION, DIVISION, EXPONENTIATION, FACTORIAL]

def FUNCTIONS : List NVarMathFunction := [SIN, COS, TAN, COT]

def CONSTANTS : List MathConstant := [PI, EULER]

/-- `my_eval = MathEvaluator(OPERATORS, FUNCTIONS, CONSTANTS, MULTIPLICATION.token)`. -/
def my_eval : Except PyError MathEvaluator :=
  MathEvaluator.init OPERATORS FUNCTIONS CONSTANTS MULTIPLICATION.token

def opsDict : Dict Operator :=
  [("+", ADDITION), ("-", SUBTRACTION), ("*", MULTIPLICATION),
    ("/", DIVISION), ("^", EXPONENTIATION), ("!", FACTORIAL)]

def fnsDict : Dict NVarMathFunction :=
  [("sin", SIN), ("cos", COS), ("tan", TAN), ("cot", COT)]

def constsDict : Dict MathConstant := [("pi", PI), ("e", EULER)]

/-- The registry state `my_eval` constructs (verified below by
`my_eval_eq`). -/
def my_eval_state : MathEvaluator where
  operators := opsDict
  functions := fnsDict
  constants := constsDict
  implicit_operation := some MULTIPLICATION

/-- `AddEdit.dummy_variables`: the placeholder constants `x_1 .. x_9`, each
with value 0. -/
def dummy_variables : List MathConstant :=
  (List.range 9).map (fun i => ⟨"x_" ++ toString (i + 1), 0⟩)

/-- `AddEdit.func_eval = MathEvaluator(OPERATORS, FUNCTIONS, CONSTANTS +
dummy_variables, MULTIPLICATION.token)`. -/
def func_eval : Except PyError MathEvaluator :=
  MathEvaluator.init OPERATORS FUNCTIONS (CONSTANTS ++ dummy_variables)
    MULTIPLICATION.token

/-- The registry state `func_eval` constructs (verified below by
`func_eval_eq`). -/
def func_eval_state : MathEvaluator where
  operators := opsDict
  functions := fnsDict
  constants := constsDict ++ (dummy_variables.map (fun c => (c.token, c)))
  implicit_operation := some MULTIPLICATION

/-! ### The user-defined function builder (`AddEdit.add_function` /
`func_operation` in `main_tasks.py`).
`add_function` captures `func_expr = deepcopy(expression)` once and registers
`lambda *args: func_operation(*args, expression=func_expr)`: every invocation
receives THE SAME list object, and `func_operation` assigns rewritten tokens
into it in place (`expression[i] = str(args[...])`).  The model therefore
threads the captured list as explicit state: an invocation maps the current
list to the rewritten list and returns it together with the evaluation
result. -/

/-- Python `str()` of the float `q`: integral values print as `<int>.0`
(call-time arguments always arrive as floats from `postfit_evaluate`).  The
fallback for non-integral values — Python would print a decimal expansion —
is never exercised by the claims. -/
def numToTok (q : Rat) : String :=
  if q.den = 1 then toString q.num ++ ".0" else toString q

/-- One iteration of the rewrite loop of `func_operation`: a token whose
first two characters are `x_` is replaced by `str(args[int(token[-1]) - 1])`.
Python's `int` on a non-digit last character raises `ValueError`, and an
index outside `args` raises `IndexError` (a NEGATIVE resulting index wraps
from the right, Python-style); the definition-time validation in
`proccess_expression` keeps both unreachable, and the model then leaves the
token unchanged. -/
def substitute_token (args : List Rat) (token : String) : String :=
  if token.toList.take 2 = ['x', '_'] then
    match token.toList.getLast? with
    | some c =>
      if c.isDigit then
        let i : Int := (c.toNat - 48 : Nat) - 1
        let idx : Nat := if i < 0 then ((args.length : Int) + i).toNat else i.toNat
        match args.get? idx with
        | some a => numToTok a
        | none => token
      else token
    | none => token
  else token

/-- `func_operation(*args, expression)`: rewrite every placeholder token of
the captured template in place, then evaluate the rewritten template against
the base registry `my_eval`.  Returns the template's new state together with
the result. -/
def func_operation (args : List Rat) (expression : List String) :
    List String × Except PyError Rat :=
  let expression := expression.map (substitute_token args)
  (expression, my_eval_state.postfit_evaluate expression)

/-! ### Fixtures and auxiliary predicates for the claims. -/

/-- A second function carrying the token `sin`, which is already a key of
the standard function map. -/
def SIN_SECOND : NVarMathFunction := singleVarFn "sin" unmodelledUnary

/-- A function carrying the token `+`, which is an operator key but absent
from the function map. -/
def PLUS_FN : NVarMathFunction := singleVarFn "+" unmodelledUnary

/-- A second constant carrying the token `pi`, which is already a key of the
standard constant map. -/
def PI_SECOND : MathConstant := ⟨"pi", 3⟩

/-- A right-associative binary operator sharing precedence 0 with
`SUBTRACTION` (whose associativity is `SPECIAL`). -/
def RIGHT_AT : Operator := .binary "@" (fun a b => some (a + b)) 0 .RIGHT

/-- A registry holding just `-` and `@`, for exercising the equal-precedence,
mixed-associativity pop decision. -/
def c2_eval_state : MathEvaluator :=
  ⟨[("-", SUBTRACTION), ("@", RIGHT_AT)], Dict.nil, Dict.nil, none⟩

/-- The pop condition as the claim words it (pop iff the STACK TOP's
precedence is strictly greater, or the precedences are equal and the STACK
TOP's associativity is LEFT or BOTH); stated only to compare against the
source's `operator_condition`, which consults the INCOMING operator's
associativity instead. -/
def claim_pop_condition (incoming top : Operator) : Bool :=
  decide (top.precedence > incoming.precedence) ||
    (decide (top.precedence = incoming.precedence) &&
      (top.associativity == Associativity.LEFT ||
       top.associativity == Associativity.SPECIAL))

/-- The three tokens the Converter treats structurally. -/
def structural (t : String) : Prop := t = "(" ∨ t = ")" ∨ t = ","

instance (t : String) : Decidable (structural t) := by
  unfold structural
  infer_instance

/-- Token `t` is carried by no registered symbol and not by the configured
implicit operation. -/
def noTokCheck (ev : MathEvaluator) (t : String) : Bool :=
  !ev.operators.contains t && !ev.functions.contains t &&
  !ev.constants.contains t &&
  (match ev.implicit_operation with
   | some op => !(op.token == t)
   | none => true)

/-- No registered symbol, and no configured implicit operation, carries one
of the structural tokens `(`, `)`, `,`. -/
def no_structural_symbols (ev : MathEvaluator) : Bool :=
  noTokCheck ev "(" && noTokCheck ev ")" && noTokCheck ev ","

/-- Output-side invariant: a token that may enter the `val_stack`. -/
def valToken (t : String) : Prop := t ≠ "(" ∧ t ≠ ")" ∧ t ≠ ","

/-- Stack-side invariant: a token that may sit on the `opt_stack` (`(` is
allowed there). -/
def optToken (t : String) : Prop := t ≠ ")" ∧ t ≠ ","

/-! ## Theorems -/

theorem my_eval_eq : my_eval = .ok my_eval_state := rfl

theorem func_eval_eq : func_eval = .ok func_eval_state := rfl

/-! ### Helper lemmas about the pop loop of `postfit_evaluate`. -/

theorem popN_of_le (n : Nat) : ∀ vs : List Rat, n ≤ vs.length →
    popN n vs = some (vs.take n, vs.drop n) := by
  induction n with
  | zero => intro vs _; simp [popN]
  | succ m ih =>
    intro vs h
    cases vs with
    | nil => simp at h
    | cons v rest =>
      simp only [popN]
      rw [ih rest (by simpa using h)]
      simp

theorem popN_of_lt (n : Nat) : ∀ vs : List Rat, vs.length < n → popN n vs = none := by
  induction n with
  | zero => intro vs h; simp at h
  | succ m ih =>
    intro vs h
    cases vs with
    | nil => rfl
    | cons v rest =>
      simp only [popN]
      rw [ih rest (by simpa using h)]

theorem operatorCall_ne_tooFew (o : Operator) (args : List Rat) (t : String) :
    o.call args ≠ .error (.tooFewOperands t) := by
  cases o with
  | unary tok f assoc =>
    cases args with
    | nil => simp [Operator.call, Operator.n_var]
    | cons a rest =>
      cases rest with
      | nil => cases h : f a <;> simp [Operator.call, Operator.n_var, h, Option.elim]
      | cons b r2 => simp [Operator.call, Operator.n_var]
  | binary tok f p assoc =>
    cases args with
    | nil => simp [Operator.call, Operator.n_var]
    | cons a rest =>
      cases rest with
      | nil => simp [Operator.call, Operator.n_var]
      | cons b r2 =>
        cases r2 with
        | nil => cases h : f a b <;> simp [Operator.call, Operator.n_var, h, Option.elim]
        | cons c r3 => simp [Operator.call, Operator.n_var]

theorem fnCall_ne_tooFew (f : NVarMathFunction)
    (args : List Rat) (t : String) :
    f.call args ≠ .error (.tooFewOperands t) := by
  unfold NVarMathFunction.call
  by_cases h : args.length = f.n_var
  · cases hop : f.operation args <;> simp [h, hop, Option.elim]
  · simp [h]

theorem refer_call_ne_tooFew (ev : MathEvaluator) (tok : String) (nv : Nat)
    (call : List Rat → Except PyError Rat)
    (href : ev.refer? tok = some (nv, call)) (args : List Rat) (t : String) :
    call args ≠ .error (.tooFewOperands t) := by
  unfold MathEvaluator.refer? at href
  split at href
  · rw [Option.map_eq_some'] at href
    obtain ⟨o, _, ho⟩ := href
    have : call = o.call := (Prod.mk.injEq _ _ _ _).mp ho |>.2.symm
    rw [this]
    exact operatorCall_ne_tooFew o args t
  · rw [Option.map_eq_some'] at href
    obtain ⟨f, _, hf⟩ := href
    have : call = f.call := (Prod.mk.injEq _ _ _ _).mp hf |>.2.symm
    rw [this]
    exact fnCall_ne_tooFew f args t

/-! ### The claims. -/

/-- Claim C1 (code-bug evidence): `add_function`'s duplicate check consults
the OPERATOR map instead of the function map.  With the standard registry,
whose function map already holds `sin`, `add_function` on a second `sin`
function succeeds — overwriting the entry so the new function is what
resolves afterwards — instead of failing with the duplicate-symbol error;
conversely, `add_function` on a function tokenised `+` (an operator key that
is absent from the function map) fails. -/
theorem C1_add_function_consults_operator_map :
    my_eval_state.functions.contains "sin" = true ∧
    (∃ ev', my_eval_state.add_function SIN_SECOND = .ok ev' ∧
      ev'.functions.get? "sin" = some SIN_SECOND) ∧
    my_eval_state.functions.contains "+" = false ∧
    my_eval_state.add_function PLUS_FN = .error (.duplicateFunction "+") :=
  ⟨rfl, ⟨_, rfl, rfl⟩, rfl, rfl⟩

/-- Claim C2 (counterexample): with incoming `-` (precedence 0, BOTH) and
stack top `@` (precedence 0, RIGHT), the source pops — `operator_condition`
is true and `parse` of `1@2-3` pops `@` to the output before handling `3`
— while the claim's condition (stack top's precedence strictly greater, or
equal precedences and the STACK TOP left- or both-associative) is false, so
the claimed equivalence fails on this pair. -/
theorem C2_counterexample :
    operator_condition SUBTRACTION RIGHT_AT = true ∧
    claim_pop_condition SUBTRACTION RIGHT_AT = false ∧
    c2_eval_state.parse "1@2-3" = .ok ["1", "2", "@", "3", "-"] :=
  ⟨rfl, rfl, rfl⟩

/-- Claim C2 (amended): for binary operators, the stack top is popped iff
its precedence is strictly greater than the incoming operator's, or the two
precedences are equal and the INCOMING operator's associativity is LEFT or
BOTH (the source consults the incoming operator's associativity, not the
stack top's). -/
theorem C2_amended (o1 o2 : Operator)
    (h1 : o1.isUnary = false) (h2 : o2.isUnary = false) :
    operator_condition o1 o2 = true ↔
      (o1.precedence < o2.precedence ∨
        (o1.precedence = o2.precedence ∧
          (o1.associativity = .LEFT ∨ o1.associativity = .SPECIAL))) := by
  unfold operator_condition
  rw [h1, h2]
  simp [Bool.or_eq_true, Bool.and_eq_true, decide_eq_true_eq, beq_iff_eq]

/-- Witness for `C2_amended` at `*` (incoming) against `+` (stack top). -/
theorem C2_amended_witness :
    operator_condition MULTIPLICATION ADDITION = true ↔
      (MULTIPLICATION.precedence < ADDITION.precedence ∨
        (MULTIPLICATION.precedence = ADDITION.precedence ∧
          (MULTIPLICATION.associativity = .LEFT ∨
           MULTIPLICATION.associativity = .SPECIAL))) :=
  C2_amended MULTIPLICATION ADDITION rfl rfl

/-- Claim C3 (code-bug evidence): the template of `f(x_1,x_2) = x_1 + x_2 * 2`
parses to `x_1 x_2 2 * +`; the first invocation with `(3, 4)` rewrites the
captured template in place and yields 11 as the claim states, but the second
invocation with `(5, 6)` receives the already-rewritten template, finds no
placeholder to rewrite, and yields 11 again instead of `5 + 6 * 2 = 17`. -/
theorem C3_template_rewritten_in_place :
    func_eval_state.parse "x_1 + x_2 * 2" = .ok ["x_1", "x_2", "2", "*", "+"] ∧
    func_operation [3, 4] ["x_1", "x_2", "2", "*", "+"] =
      (["3.0", "4.0", "2", "*", "+"], .ok 11) ∧
    func_operation [5, 6] ["3.0", "4.0", "2", "*", "+"] =
      (["3.0", "4.0", "2", "*", "+"], .ok 11) ∧
    (func_operation [5, 6] ["3.0", "4.0", "2", "*", "+"]).2 ≠ .ok 17 := by
  refine ⟨rfl, rfl, rfl, fun hc => ?_⟩
  rw [show (func_operation [5, 6] ["3.0", "4.0", "2", "*", "+"]).2 = .ok 11
    from rfl] at hc
  exact absurd (Except.ok.inj hc) (by norm_num)

/-- Claim C4 (counterexample): `parse "!3"` does not fail with `UnknownToken`
or any other error — it succeeds with the postfix `3 !`. -/
theorem C4_counterexample : my_eval_state.parse "!3" = .ok ["3", "!"] := rfl

/-- Claim C4 (amended): with `!` registered as a left-associative unary
operator over the standard registry, `parse "3!"` yields the postfix `3 !`,
which evaluates to 6; and `parse "!3"` does NOT fail — it yields the very
same postfix (prefix misuse of a left-associative unary operator is not
rejected). -/
theorem C4_amended :
    my_eval_state.parse "3!" = .ok ["3", "!"] ∧
    my_eval_state.postfit_evaluate ["3", "!"] = .ok 6 ∧
    my_eval_state.parse "!3" = .ok ["3", "!"] :=
  ⟨rfl, rfl, rfl⟩

/-- Claim C7: registering a second constant under a token already held by
the constant map fails with the duplicate-symbol error; the failed call
produces no registry state at all in this embedding (so nothing is mutated),
and the token still resolves to the originally registered constant. -/
theorem C7_duplicate_constant (ev : MathEvaluator) (c0 c1 : MathConstant)
    (h : ev.constants.get? c1.token = some c0) :
    ev.add_constant c1 = .error (.duplicateConstant c1.token) ∧
    ev.constants.get? c1.token = some c0 := by
  refine ⟨?_, h⟩
  unfold MathEvaluator.add_constant Dict.contains
  rw [h]
  rfl

/-- Witness for `C7_duplicate_constant`: a second `pi` against the standard
registry. -/
theorem C7_witness :
    my_eval_state.add_constant PI_SECOND = .error (.duplicateConstant "pi") ∧
    my_eval_state.constants.get? "pi" = some PI :=
  C7_duplicate_constant my_eval_state PI PI_SECOND rfl

/-- Claim C5: with an implicit operation configured, reading a constant token
whose previous token (by original index) is numeric first pushes the implicit
operation's token onto the operator stack and then appends the constant to
the output; in particular, with `*` implicit and `pi` registered,
`parse "2pi"` yields the postfix `2 pi *`, which evaluates to `2 * pi` (with
`pi` bound to the registry's value of `np.pi`). -/
theorem C5_implicit_multiplication
    (ev : MathEvaluator) (op : Operator) (p tok : String)
    (opt val : List String)
    (himp : ev.implicit_operation = some op)
    (hnum : is_numeric tok = false)
    (hconst : ev.constants.contains tok = true)
    (hprev : is_numeric p = true) :
    ev.parseStep (some p) tok opt val = .ok (op.token :: opt, val ++ [tok]) ∧
    my_eval_state.parse "2pi" = .ok ["2", "pi", "*"] ∧
    my_eval_state.postfit_evaluate ["2", "pi", "*"] = .ok (2 * np_pi) := by
  refine ⟨?_, rfl, rfl⟩
  unfold MathEvaluator.parseStep MathEvaluator.check_implicit_operation
  simp only [hnum, hconst, himp, hprev, Bool.false_eq_true, if_false, if_true]

/-- Witness for `C5_implicit_multiplication` at the standard registry, with
previous token `2` and constant `pi`. -/
theorem C5_witness :
    my_eval_state.parseStep (some "2") "pi" [] ["2"] =
      .ok ([MULTIPLICATION.token], ["2", "pi"]) ∧
    my_eval_state.parse "2pi" = .ok ["2", "pi", "*"] ∧
    my_eval_state.postfit_evaluate ["2", "pi", "*"] = .ok (2 * np_pi) :=
  C5_implicit_multiplication my_eval_state MULTIPLICATION "2" "pi" [] ["2"]
    rfl rfl rfl rfl

/-- Claim C6: a postfix token resolving to an operator or function pops
exactly its arity of values — failing with the too-few-operands error
exactly when the value stack holds fewer — reverses the popped values back
into original left-to-right order, applies the symbol's operation and pushes
the single result. -/
theorem C6_pop_arity (ev : MathEvaluator) (values : List Rat) (tok : String)
    (nv : Nat) (call : List Rat → Except PyError Rat)
    (href : ev.refer? tok = some (nv, call)) :
    (ev.evalStep values tok = .error (.tooFewOperands tok) ↔
      values.length < nv) ∧
    (nv ≤ values.length →
      ev.evalStep values tok =
        match call ((values.take nv).reverse) with
        | .error e => .error e
        | .ok v => .ok (v :: values.drop nv)) := by
  have hred : ev.evalStep values tok =
      match popN nv values with
      | none => .error (.tooFewOperands tok)
      | some r =>
        match call r.1.reverse with
        | .error e => .error e
        | .ok v => .ok (v :: r.2) := by
    unfold MathEvaluator.evalStep
    rw [href]
  by_cases hlen : nv ≤ values.length
  · have hred2 : ev.evalStep values tok =
        match call ((values.take nv).reverse) with
        | .error e => .error e
        | .ok v => .ok (v :: values.drop nv) := by
      rw [hred, popN_of_le nv values hlen]
    refine ⟨⟨fun hstep => ?_, fun hlt => absurd hlt (by omega)⟩,
      fun _ => hred2⟩
    rw [hred2] at hstep
    cases hc : call ((values.take nv).reverse) with
    | ok v => rw [hc] at hstep; exact absurd hstep (by simp)
    | error e =>
      rw [hc] at hstep
      have he : e = .tooFewOperands tok := by simpa using hstep
      rw [he] at hc
      exact absurd hc (refer_call_ne_tooFew ev tok nv call href _ tok)
  · have hlt : values.length < nv := by omega
    have hred3 : ev.evalStep values tok = .error (.tooFewOperands tok) := by
      rw [hred, popN_of_lt nv values hlt]
    exact ⟨iff_of_true hred3 hlt, fun hle => absurd hle hlen⟩

/-- Witness for `C6_pop_arity` at the standard registry, token `+` over the
stack `[4, 3]` (top first). -/
theorem C6_witness :
    (my_eval_state.evalStep [4, 3] "+" = .error (.tooFewOperands "+") ↔
      ([4, 3] : List Rat).length < 2) ∧
    (2 ≤ ([4, 3] : List Rat).length →
      my_eval_state.evalStep [4, 3] "+" =
        match ADDITION.call ((([4, 3] : List Rat).take 2).reverse) with
        | .error e => .error e
        | .ok v => .ok (v :: ([4, 3] : List Rat).drop 2)) :=
  C6_pop_arity my_eval_state [4, 3] "+" 2 ADDITION.call rfl

/-- Claim C9: `__init__` with an `implicit_operation_token` that is not an
operator key succeeds (whenever symbol registration itself succeeds) and
silently leaves `_implicit_operation` unset, whereas the
`implicit_operation` setter fails with the `OperatorException` on the very
same token. -/
theorem C9_init_setter_disagree (ops : List Operator)
    (fns : List NVarMathFunction) (consts : List MathConstant)
    (tok : String) (ev : MathEvaluator)
    (hinit : MathEvaluator.init ops fns consts tok = .ok ev)
    (habs : ev.operators.get? tok = none) :
    ev.implicit_operation = none ∧
    ev.set_implicit_operation tok = .error (.unknownImplicit tok) := by
  unfold MathEvaluator.init at hinit
  split at hinit
  · exact absurd hinit (by simp)
  · split at hinit
    · exact absurd hinit (by simp)
    · split at hinit
      · exact absurd hinit (by simp)
      · rename_i e3 _
        have hev : ev = { e3 with
            implicit_operation := e3.operators.get? tok } :=
          (Except.ok.inj hinit).symm
        subst hev
        have hops : e3.operators.get? tok = none := habs
        refine ⟨hops, ?_⟩
        unfold MathEvaluator.set_implicit_operation
        rw [show ({ e3 with implicit_operation := e3.operators.get? tok} :
          MathEvaluator).operators = e3.operators from rfl, hops]

/-- Witness for `C9_init_setter_disagree`: an empty registry constructed
with implicit token `*`. -/
theorem C9_witness :
    (⟨Dict.nil, Dict.nil, Dict.nil, none⟩ :
        MathEvaluator).implicit_operation = none ∧
    (⟨Dict.nil, Dict.nil, Dict.nil, none⟩ :
        MathEvaluator).set_implicit_operation "*" =
      .error (.unknownImplicit "*") :=
  C9_init_setter_disagree [] [] [] "*"
    ⟨Dict.nil, Dict.nil, Dict.nil, none⟩ rfl rfl

theorem isolate_nil : ∀ (l : List String), (∀ t ∈ l, t ≠ "") →
    isolateTokens l [] = [] := by
  intro l
  induction l with
  | nil => intro _; rfl
  | cons t ts ih =>
    intro h
    have ht : t ≠ "" := h t (List.mem_cons_self t ts)
    have hcs : containsSub [] t.toList = false := by
      cases hx : t.toList with
      | nil =>
        exfalso
        apply ht
        cases t with
        | mk data =>
          simp only [String.toList] at hx
          rw [hx]
      | cons c cs => rfl
    unfold isolateTokens
    simp only [List.foldl_cons, hcs, Bool.false_eq_true, if_false]
    exact ih (fun x hx => h x (List.mem_cons_of_mem t hx))

/-- Claim C8: for every registry whose tokens are all non-empty (the symbol
constructors reject empty tokens), `parse ""` succeeds with the empty token
list, and evaluating the empty token list yields 0 rather than failing. -/
theorem C8_empty_expression (ev : MathEvaluator)
    (h : ∀ t ∈ ev.recognised_tokens, t ≠ "") :
    ev.parse "" = .ok [] ∧ ev.postfit_evaluate [] = .ok 0 := by
  refine ⟨?_, rfl⟩
  unfold MathEvaluator.parse MathEvaluator.shuntyard_format_string
  rw [show ("" : String).toList = ([] : List Char) from rfl,
    isolate_nil ev.recognised_tokens h]
  rfl

/-- Witness for `C8_empty_expression` at the standard registry. -/
theorem C8_witness :
    my_eval_state.parse "" = .ok [] ∧
    my_eval_state.postfit_evaluate [] = .ok 0 :=
  C8_empty_expression my_eval_state (by decide)

/-! ### The stack invariants behind claim C10. -/

theorem valToken_iff_not_structural (t : String) :
    valToken t ↔ ¬ structural t := by
  unfold valToken structural
  constructor
  · rintro ⟨h1, h2, h3⟩ (rfl | rfl | rfl)
    · exact h1 rfl
    · exact h2 rfl
    · exact h3 rfl
  · intro h
    exact ⟨fun he => h (Or.inl he), fun he => h (Or.inr (Or.inl he)),
      fun he => h (Or.inr (Or.inr he))⟩

theorem valToken.opt {t : String} (h : valToken t) : optToken t :=
  ⟨h.2.1, h.2.2⟩

theorem valToken_of_numeric {t : String} (h : is_numeric t = true) :
    valToken t := by
  refine ⟨?_, ?_, ?_⟩ <;> rintro rfl <;> exact absurd h (by decide)

theorem noTokCheck_spec (ev : MathEvaluator) (t : String)
    (h : noTokCheck ev t = true) :
    ev.operators.contains t = false ∧ ev.functions.contains t = false ∧
    ev.constants.contains t = false ∧
    (∀ op, ev.implicit_operation = some op → op.token ≠ t) := by
  unfold noTokCheck at h
  simp only [Bool.and_eq_true, Bool.not_eq_true'] at h
  obtain ⟨⟨⟨h1, h2⟩, h3⟩, h4⟩ := h
  refine ⟨h1, h2, h3, fun op himp => ?_⟩
  rw [himp] at h4
  simp only [] at h4
  simpa using h4

theorem no_structural_spec (ev : MathEvaluator)
    (h : no_structural_symbols ev = true) :
    (∀ t, structural t → ev.operators.contains t = false) ∧
    (∀ t, structural t → ev.functions.contains t = false) ∧
    (∀ t, structural t → ev.constants.contains t = false) ∧
    (∀ op, ev.implicit_operation = some op → valToken op.token) := by
  unfold no_structural_symbols at h
  simp only [Bool.and_eq_true] at h
  obtain ⟨⟨hp, hr⟩, hc⟩ := h
  obtain ⟨po, pf, pc, pi⟩ := noTokCheck_spec ev _ hp
  obtain ⟨ro, rf2, rc, ri⟩ := noTokCheck_spec ev _ hr
  obtain ⟨co, cf, cc, ci⟩ := noTokCheck_spec ev _ hc
  refine ⟨?_, ?_, ?_, ?_⟩
  · intro t ht; rcases ht with rfl | rfl | rfl <;> assumption
  · intro t ht; rcases ht with rfl | rfl | rfl <;> assumption
  · intro t ht; rcases ht with rfl | rfl | rfl <;> assumption
  · intro op himp
    exact ⟨pi op himp, ri op himp, ci op himp⟩

theorem popOperators_inv (ev : MathEvaluator) (inc : Operator) :
    ∀ (opt val opt' val' : List String),
      ev.popOperators inc opt val = .ok (opt', val') →
      (∀ x ∈ opt, optToken x) → (∀ x ∈ val, valToken x) →
      (∀ x ∈ opt', optToken x) ∧ (∀ x ∈ val', valToken x) := by
  intro opt
  induction opt with
  | nil =>
    intro val opt' val' h ho hv
    unfold MathEvaluator.popOperators at h
    simp only [Except.ok.injEq, Prod.mk.injEq] at h
    obtain ⟨rfl, rfl⟩ := h
    exact ⟨ho, hv⟩
  | cons top rest ih =>
    intro val opt' val' h ho hv
    unfold MathEvaluator.popOperators at h
    by_cases htop : top = "("
    · rw [if_pos htop] at h
      simp only [Except.ok.injEq, Prod.mk.injEq] at h
      obtain ⟨rfl, rfl⟩ := h
      exact ⟨ho, hv⟩
    · rw [if_neg htop] at h
      cases hg : ev.operators.get? top with
      | none => rw [hg] at h; exact absurd h (by simp)
      | some o2 =>
        rw [hg] at h
        simp only [] at h
        by_cases hc : operator_condition inc o2 = true
        · rw [if_pos hc] at h
          refine ih (val ++ [top]) opt' val' h
            (fun x hx => ho x (List.mem_cons_of_mem top hx)) ?_
          intro x hx
          rcases List.mem_append.mp hx with hx | hx
          · exact hv x hx
          · rw [List.mem_singleton.mp hx]
            have ht := ho top (List.mem_cons_self top rest)
            exact ⟨htop, ht.1, ht.2⟩
        · rw [if_neg hc] at h
          simp only [Except.ok.injEq, Prod.mk.injEq] at h
          obtain ⟨rfl, rfl⟩ := h
          exact ⟨ho, hv⟩

theorem popUntilParen_inv :
    ∀ (opt val opt' val' : List String),
      popUntilParen opt val = .ok (opt', val') →
      (∀ x ∈ opt, optToken x) → (∀ x ∈ val, valToken x) →
      (∀ x ∈ opt', optToken x) ∧ (∀ x ∈ val', valToken x) := by
  intro opt
  induction opt with
  | nil =>
    intro val opt' val' h _ _
    exact absurd h (by simp [popUntilParen])
  | cons top rest ih =>
    intro val opt' val' h ho hv
    unfold popUntilParen at h
    by_cases htop : top = "("
    · rw [if_pos htop] at h
      simp only [Except.ok.injEq, Prod.mk.injEq] at h
      obtain ⟨rfl, rfl⟩ := h
      exact ⟨ho, hv⟩
    · rw [if_neg htop] at h
      refine ih (val ++ [top]) opt' val' h
        (fun x hx => ho x (List.mem_cons_of_mem top hx)) ?_
      intro x hx
      rcases List.mem_append.mp hx with hx | hx
      · exact hv x hx
      · rw [List.mem_singleton.mp hx]
        have ht := ho top (List.mem_cons_self top rest)
        exact ⟨htop, ht.1, ht.2⟩

theorem drainStack_inv :
    ∀ (opt val out : List String),
      drainStack opt val = .ok out →
      (∀ x ∈ opt, optToken x) → (∀ x ∈ val, valToken x) →
      (∀ x ∈ out, valToken x) := by
  intro opt
  induction opt with
  | nil =>
    intro val out h _ hv
    obtain rfl := Except.ok.inj h
    exact hv
  | cons top rest ih =>
    intro val out h ho hv
    unfold drainStack at h
    by_cases htop : top = "("
    · rw [if_pos htop] at h
      exact absurd h (by simp)
    · rw [if_neg htop] at h
      refine ih (val ++ [top]) out h
        (fun x hx => ho x (List.mem_cons_of_mem top hx)) ?_
      intro x hx
      rcases List.mem_append.mp hx with hx | hx
      · exact hv x hx
      · rw [List.mem_singleton.mp hx]
        have ht := ho top (List.mem_cons_self top rest)
        exact ⟨htop, ht.1, ht.2⟩

theorem check_implicit_inv (ev : MathEvaluator)
    (hI : ∀ op, ev.implicit_operation = some op → valToken op.token)
    (prev : Option String) (opt : List String)
    (ho : ∀ x ∈ opt, optToken x) :
    ∀ x ∈ ev.check_implicit_operation prev opt, optToken x := by
  unfold MathEvaluator.check_implicit_operation
  cases prev with
  | none => exact ho
  | some p =>
    cases himp : ev.implicit_operation with
    | none => exact ho
    | some op =>
      simp only []
      by_cases hp : is_numeric p = true
      · rw [if_pos hp]
        intro x hx
        rcases List.mem_cons.mp hx with rfl | hx
        · exact (hI op himp).opt
        · exact ho x hx
      · rw [if_neg hp]
        exact ho

theorem parseStep_inv (ev : MathEvaluator)
    (hO : ∀ t, structural t → ev.operators.contains t = false)
    (hF : ∀ t, structural t → ev.functions.contains t = false)
    (hC : ∀ t, structural t → ev.constants.contains t = false)
    (hI : ∀ op, ev.implicit_operation = some op → valToken op.token) :
    ∀ (prev : Option String) (t : String) (opt val opt' val' : List String),
      ev.parseStep prev t opt val = .ok (opt', val') →
      (∀ x ∈ opt, optToken x) → (∀ x ∈ val, valToken x) →
      (∀ x ∈ opt', optToken x) ∧ (∀ x ∈ val', valToken x) := by
  intro prev t opt val opt' val' h ho hv
  unfold MathEvaluator.parseStep at h
  by_cases hn : is_numeric t = true
  · rw [if_pos hn] at h
    simp only [Except.ok.injEq, Prod.mk.injEq] at h
    obtain ⟨rfl, rfl⟩ := h
    refine ⟨ho, ?_⟩
    intro x hx
    rcases List.mem_append.mp hx with hx | hx
    · exact hv x hx
    · rw [List.mem_singleton.mp hx]
      exact valToken_of_numeric hn
  · rw [if_neg hn] at h
    by_cases hc : ev.constants.contains t = true
    · rw [if_pos hc] at h
      simp only [Except.ok.injEq, Prod.mk.injEq] at h
      obtain ⟨rfl, rfl⟩ := h
      refine ⟨check_implicit_inv ev hI prev opt ho, ?_⟩
      intro x hx
      rcases List.mem_append.mp hx with hx | hx
      · exact hv x hx
      · rw [List.mem_singleton.mp hx]
        rw [valToken_iff_not_structural]
        intro hs
        rw [hC t hs] at hc
        exact absurd hc (by simp)
    · rw [if_neg hc] at h
      by_cases hf : ev.functions.contains t = true
      · rw [if_pos hf] at h
        simp only [Except.ok.injEq, Prod.mk.injEq] at h
        obtain ⟨rfl, rfl⟩ := h
        refine ⟨?_, hv⟩
        intro x hx
        rcases List.mem_cons.mp hx with rfl | hx
        · refine valToken.opt ?_
          rw [valToken_iff_not_structural]
          intro hs
          rw [hF x hs] at hf
          exact absurd hf (by simp)
        · exact check_implicit_inv ev hI prev opt ho x hx
      · rw [if_neg hf] at h
        cases hg : ev.operators.get? t with
        | some inc =>
          rw [hg] at h
          simp only [] at h
          cases hp : ev.popOperators inc opt val with
          | error e => rw [hp] at h; exact absurd h (by simp)
          | ok r =>
            obtain ⟨o', v'⟩ := r
            rw [hp] at h
            simp only [Except.ok.injEq, Prod.mk.injEq] at h
            obtain ⟨rfl, rfl⟩ := h
            obtain ⟨ho', hv'⟩ := popOperators_inv ev inc opt val o' v' hp ho hv
            refine ⟨?_, hv'⟩
            intro x hx
            rcases List.mem_cons.mp hx with rfl | hx
            · have hco : ev.operators.contains x = true := by
                unfold Dict.contains
                rw [hg]
                rfl
              refine valToken.opt ?_
              rw [valToken_iff_not_structural]
              intro hs
              rw [hO x hs] at hco
              exact absurd hco (by simp)
            · exact ho' x hx
        | none =>
          rw [hg] at h
          by_cases hcomma : t = ","
          · rw [if_pos hcomma] at h
            exact popUntilParen_inv opt val opt' val' h ho hv
          · rw [if_neg hcomma] at h
            by_cases hlp : t = "("
            · rw [if_pos hlp] at h
              simp only [Except.ok.injEq, Prod.mk.injEq] at h
              obtain ⟨rfl, rfl⟩ := h
              refine ⟨?_, hv⟩
              intro x hx
              rcases List.mem_cons.mp hx with rfl | hx
              · exact ⟨by decide, by decide⟩
              · exact ho x hx
            · rw [if_neg hlp] at h
              by_cases hrp : t = ")"
              · rw [if_pos hrp] at h
                cases hp : popUntilParen opt val with
                | error e => rw [hp] at h; exact absurd h (by simp)
                | ok r =>
                  obtain ⟨o', v'⟩ := r
                  rw [hp] at h
                  simp only [] at h
                  obtain ⟨ho', hv'⟩ := popUntilParen_inv opt val o' v' hp ho hv
                  cases o' with
                  | nil => exact absurd h (by simp)
                  | cons hd rest =>
                    cases rest with
                    | nil =>
                      simp only [] at h
                      simp only [Except.ok.injEq, Prod.mk.injEq] at h
                      obtain ⟨rfl, rfl⟩ := h
                      exact ⟨by simp, hv'⟩
                    | cons top rest2 =>
                      simp only [] at h
                      by_cases hft : ev.functions.contains top = true
                      · rw [if_pos hft] at h
                        simp only [Except.ok.injEq, Prod.mk.injEq] at h
                        obtain ⟨rfl, rfl⟩ := h
                        constructor
                        · intro x hx
                          exact ho' x (by simp [hx])
                        · intro x hx
                          rcases List.mem_append.mp hx with hx | hx
                          · exact hv' x hx
                          · rw [List.mem_singleton.mp hx]
                            rw [valToken_iff_not_structural]
                            intro hs
                            rw [hF top hs] at hft
                            exact absurd hft (by simp)
                      · rw [if_neg hft] at h
                        simp only [Except.ok.injEq, Prod.mk.injEq] at h
                        obtain ⟨rfl, rfl⟩ := h
                        exact ⟨fun x hx => ho' x (by simp [hx]), hv'⟩
              · rw [if_neg hrp] at h
                exact absurd h (by simp)

theorem parseTokens_inv (ev : MathEvaluator)
    (hO : ∀ t, structural t → ev.operators.contains t = false)
    (hF : ∀ t, structural t → ev.functions.contains t = false)
    (hC : ∀ t, structural t → ev.constants.contains t = false)
    (hI : ∀ op, ev.implicit_operation = some op → valToken op.token) :
    ∀ (ts : List String) (prev : Option String)
      (opt val out : List String),
      ev.parseTokens ts prev opt val = .ok out →
      (∀ x ∈ opt, optToken x) → (∀ x ∈ val, valToken x) →
      ∀ x ∈ out, valToken x := by
  intro ts
  induction ts with
  | nil =>
    intro prev opt val out h ho hv
    exact drainStack_inv opt val out h ho hv
  | cons t rest ih =>
    intro prev opt val out h ho hv
    unfold MathEvaluator.parseTokens at h
    cases hp : ev.parseStep prev t opt val with
    | error e => rw [hp] at h; exact absurd h (by simp)
    | ok r =>
      rw [hp] at h
      simp only [] at h
      obtain ⟨ho', hv'⟩ := parseStep_inv ev hO hF hC hI prev t opt val
        r.1 r.2 (by rw [hp]) ho hv
      exact ih (some t) r.1 r.2 out h ho' hv'

/-- Claim C10: whenever no registered symbol (and no implicit operation)
carries a structural token, a successful `parse` never emits `(`, `)` or `,`
into the returned postfix sequence, so the Evaluator never sees a grouping
token. -/
theorem C10_no_structural_output (ev : MathEvaluator)
    (h : no_structural_symbols ev = true) (expr : String)
    (out : List String) (hp : ev.parse expr = .ok out) :
    "(" ∉ out ∧ ")" ∉ out ∧ "," ∉ out := by
  obtain ⟨hO, hF, hC, hI⟩ := no_structural_spec ev h
  have hval : ∀ x ∈ out, valToken x :=
    parseTokens_inv ev hO hF hC hI _ none [] [] out hp (by simp) (by simp)
  exact ⟨fun hx => (hval _ hx).1 rfl, fun hx => (hval _ hx).2.1 rfl,
    fun hx => (hval _ hx).2.2 rfl⟩

/-- Witness for `C10_no_structural_output`: the standard registry and the
expression `1+2`, which parses to `1 2 +`. -/
theorem C10_witness :
    no_structural_symbols my_eval_state = true ∧
    ("(" ∉ ["1", "2", "+"] ∧ ")" ∉ ["1", "2", "+"] ∧
      "," ∉ ["1", "2", "+"]) :=
  ⟨rfl, C10_no_structural_output my_eval_state rfl "1+2" ["1", "2", "+"] rfl⟩

end MathParser
